import Mathlib

/- A shallow embedding of the lesson-scheduling backend's model layer
   (src/model/lesson.rs, src/model/repeat.rs) and of its authentication
   middleware (src/middleware/authentication.rs), over an explicit
   relational-store state.  Every storage round-trip may fail; failure is
   injected by an oracle indexed by the query's position inside the call,
   and a transaction publishes its working state only when it reaches
   commit, otherwise the store rolls back to its pre-call state. -/

namespace NeStudent

abbrev LessonID := Nat
abbrev AccountID := Nat
abbrev TeacherID := Nat

/-- A calendar date (proleptic Gregorian), as stored in a DATE column. -/
structure Date where
  year : Nat
  month : Nat
  day : Nat
  deriving DecidableEq, Repr

/-- Day count since 0000-03-01 (March-based civil calendar), used for
    ordering, weekday arithmetic and week counting. -/
def Date.toDays (dt : Date) : Nat :=
  let y := if dt.month ≤ 2 then dt.year - 1 else dt.year
  let mp := (dt.month + 9) % 12
  let doy := (153 * mp + 2) / 5 + (dt.day - 1)
  y * 365 + y / 4 - y / 100 + y / 400 + doy

/-- ISO weekday number of a date, Monday = 1 .. Sunday = 7
    (day 0 of the count, 0000-03-01, was a Wednesday). -/
def weekdayOf (d : Date) : Nat := (d.toDays + 2) % 7 + 1

/-- A TIMESTAMP value: a date plus seconds within the day. -/
structure Timestamp where
  date : Date
  secs : Nat
  deriving DecidableEq, Repr

/-- Seconds since the day-count origin; the order of timestamps. -/
def Timestamp.toSecs (t : Timestamp) : Nat := t.date.toDays * 86400 + t.secs

/-- The date component of a timestamp, as a day count. -/
def Timestamp.dayNumber (t : Timestamp) : Nat := t.toSecs / 86400

/-- Week days, numbered 1-7 as in src/model/repeat.rs. -/
inductive WeekDay
  | monday | tuesday | wednesday | thursday | friday | saturday | sunday
  deriving DecidableEq, Repr

def WeekDay.toNat : WeekDay → Nat
  | .monday => 1
  | .tuesday => 2
  | .wednesday => 3
  | .thursday => 4
  | .friday => 5
  | .saturday => 6
  | .sunday => 7

/-- Modelled from the spec: the SingleOccurrence row type is not under src;
    §3 "Single occurrence: one absolute timestamp (date + time)". -/
structure SingleOccurrence where
  occurs_at : Timestamp
  deriving DecidableEq, Repr

/-- Modelled from the spec: the DailyRepeat row type is not under src;
    §3 "Daily repeat: start_date, optional end_date (inclusive bound;
    absent = unbounded), time". -/
structure DailyRepeat where
  start_date : Date
  end_date : Option Date
  time : Nat
  deriving DecidableEq, Repr

/-- Modelled from the spec: the WeeklyRepeat row type is not under src;
    §3 "Weekly repeat: start_date, optional end_date, week_day, every
    (repeat interval in weeks, ≥1), time".  Field shape matches the in-src
    generic Repeat of src/model/repeat.rs. -/
structure WeeklyRepeat where
  start_date : Date
  end_date : Option Date
  week_day : WeekDay
  every : Nat
  time : Nat
  deriving DecidableEq, Repr

/-- Modelled from the spec: the MonthlyRepeat row type is not under src;
    §3 "Monthly repeat: start_date, optional end_date, time (date component
    of the anchor determines day-of-month), every (interval in months, ≥1)".
    scheduled_time is the anchor timestamp the for_date SQL passes as
    scheduled_time::DATE. -/
structure MonthlyRepeat where
  start_date : Date
  end_date : Option Date
  scheduled_time : Timestamp
  every : Nat
  deriving DecidableEq, Repr

/-- Range test shared by the repeat predicates: start_date ≤ d, and
    d ≤ end_date when an end date is present (absent means unbounded). -/
def inRange (start : Date) (stop : Option Date) (d : Date) : Bool :=
  decide (start.toDays ≤ d.toDays) &&
    (match stop with
     | none => true
     | some e => decide (d.toDays ≤ e.toDays))

/-- The single-occurrence date test of Lesson::for_date, translated from
    the SQL literal in src/model/lesson.rs:
    occurs_at BETWEEN $1 AND $1 + 1, where $1 is the query DATE promoted
    to the timestamp at its midnight, and BETWEEN is inclusive at both
    ends. -/
def singleMatches (occurs_at : Timestamp) (d : Date) : Bool :=
  decide (d.toDays * 86400 ≤ occurs_at.toSecs) &&
    decide (occurs_at.toSecs ≤ (d.toDays + 1) * 86400)

/-- Modelled from the spec: the SQL function repeats_on_date_daily is not
    under src; §4.3 "daily: start_date ≤ date ≤ end_date (end_date absent
    ⇒ unbounded upper)". -/
def repeats_on_date_daily (start : Date) (stop : Option Date) (d : Date) : Bool :=
  inRange start stop d

/-- Modelled from the spec: the SQL function repeats_on_date_weekly is not
    under src; §4.3 "weekly: in range, date's weekday equals week_day, and
    the number of whole weeks between start_date and date is divisible by
    every". -/
def repeats_on_date_weekly (start : Date) (stop : Option Date) (wd : WeekDay)
    (every : Nat) (d : Date) : Bool :=
  inRange start stop d && decide (weekdayOf d = wd.toNat) &&
    decide ((d.toDays - start.toDays) / 7 % every = 0)

/-- Modelled from the spec: the SQL function repeats_on_date_monthly is not
    under src; §4.3 "monthly: in range, date's day-of-month equals the
    anchor's day-of-month, and the number of whole months between start_date
    and date is divisible by every" (the anchor date is the third SQL
    argument, scheduled_time::DATE). -/
def repeats_on_date_monthly (start : Date) (stop : Option Date) (anchor : Date)
    (every : Nat) (d : Date) : Bool :=
  inRange start stop d && decide (d.day = anchor.day) &&
    decide ((d.year * 12 + d.month - (start.year * 12 + start.month)) % every = 0)

/-- Permission levels of a grant row, as in src/model/permission (read /
    read-write). -/
inductive PermissionType
  | read
  | readWrite
  deriving DecidableEq, Repr

/-- A row of the LessonPermission table. -/
structure PermissionRow where
  lesson_id : LessonID
  account_id : AccountID
  permission_type : PermissionType
  deriving DecidableEq, Repr

/-- Modelled from the spec: the SQL function lesson_permission_for is not
    under src; §4.4 "levelFor(accountId, lessonId) derived from the grant
    table; no grant row ⇒ none". -/
def lesson_permission_for (perms : List PermissionRow) (l : LessonID)
    (a : AccountID) : Option PermissionType :=
  (perms.find? (fun p => p.lesson_id == l && p.account_id == a)).map
    (fun p => p.permission_type)

/-- Modelled from the spec: the SQL function is_read_permission is not under
    src; §4.4 "read-write implies read" — any grant level is at least
    read. -/
def is_read_permission : Option PermissionType → Bool
  | some _ => true
  | none => false

/-- The base columns of the Lesson table (title, description), as selected
    by Lesson::by_id and Lesson::for_date. -/
structure LessonBase where
  title : String
  description : Option String
  deriving DecidableEq, Repr

/-- The relational store: one field per table of §6, plus the id generator
    backing INSERT .. RETURNING id. -/
structure DB where
  lessons : List (LessonID × LessonBase)
  nextLessonId : LessonID
  singleOccurrences : List (LessonID × SingleOccurrence)
  dailyRepeats : List (LessonID × DailyRepeat)
  weeklyRepeats : List (LessonID × WeeklyRepeat)
  monthlyRepeats : List (LessonID × MonthlyRepeat)
  teacherLessons : List (LessonID × TeacherID)
  permissions : List PermissionRow
  deriving DecidableEq, Repr

/-- listForLesson / of_lesson_in_transaction: the rows of one recurrence
    (or teacher-link) table belonging to a lesson. -/
def rowsFor {ρ : Type} (tab : List (LessonID × ρ)) (l : LessonID) : List ρ :=
  tab.filterMap (fun p => if p.1 = l then some p.2 else none)

/-- deleteForLesson / delete_in_transaction: DELETE ... WHERE lesson_id = $1. -/
def deleteFor {ρ : Type} (tab : List (LessonID × ρ)) (l : LessonID) :
    List (LessonID × ρ) :=
  tab.filter (fun p => decide (p.1 ≠ l))

/-- insertBatch / insert_in_transaction's effect: bulk insert tagging each
    row with the lesson id; an empty batch leaves the table unchanged. -/
def insertBatch {ρ : Type} (tab : List (LessonID × ρ)) (rows : List ρ)
    (l : LessonID) : List (LessonID × ρ) :=
  tab ++ rows.map (fun r => (l, r))

/-- fetch_optional of the base row: the first row whose id matches. -/
def lookupBase : List (LessonID × LessonBase) → LessonID → Option LessonBase
  | [], _ => none
  | p :: rest, l => if p.1 = l then some p.2 else lookupBase rest l

/-- A storage failure surfaced by sqlx, tagged with the index of the query
    that failed inside the current call. -/
inductive SqlError
  | queryFailed (idx : Nat)
  deriving DecidableEq, Repr

/-- Failure injection: the oracle decides, per query position, whether that
    storage round-trip fails. -/
abbrev FailOracle := Nat → Bool

/-- The oracle of a healthy store: no round-trip fails. -/
def noFail : FailOracle := fun _ => false

/-- One storage round-trip: fails when the oracle says so, otherwise
    advances the query counter. -/
def runQuery (o : FailOracle) (c : Nat) : Except SqlError Nat :=
  if o c then .error (.queryFailed c) else .ok (c + 1)

/-- The round-trip of a bulk insert: skipped entirely (no query executed)
    when the batch is empty, as in Repeat::insert_in_transaction. -/
def insertQueryStep (o : FailOracle) (c : Nat) (isEmp : Bool) :
    Except SqlError Nat :=
  if isEmp then Except.ok c else runQuery o c

/-- The fully hydrated aggregate of src/model/lesson.rs (struct Lesson). -/
structure Lesson where
  id : LessonID
  title : String
  description : Option String
  singles : List SingleOccurrence
  weekly : List WeeklyRepeat
  daily : List DailyRepeat
  monthly : List MonthlyRepeat
  teachers : List TeacherID
  deriving DecidableEq, Repr

/-- Transaction body of Lesson::create (src/model/lesson.rs lines 92-124):
    begin, base INSERT .. RETURNING id, the four recurrence bulk inserts
    (each skipped when its collection is empty), the owner's read-write
    grant, commit. -/
def createWork (o : FailOracle) (db : DB) (title : String)
    (description : Option String) (singles : List SingleOccurrence)
    (daily : List DailyRepeat) (weekly : List WeeklyRepeat)
    (monthly : List MonthlyRepeat) (owner : AccountID) :
    Except SqlError (DB × Lesson) := do
  let c ← runQuery o 0
  let c ← runQuery o c
  let id := db.nextLessonId
  let db := { db with
    lessons := db.lessons ++ [(id, (⟨title, description⟩ : LessonBase))],
    nextLessonId := id + 1 }
  let c ← insertQueryStep o c singles.isEmpty
  let db := { db with singleOccurrences := insertBatch db.singleOccurrences singles id }
  let c ← insertQueryStep o c daily.isEmpty
  let db := { db with dailyRepeats := insertBatch db.dailyRepeats daily id }
  let c ← insertQueryStep o c weekly.isEmpty
  let db := { db with weeklyRepeats := insertBatch db.weeklyRepeats weekly id }
  let c ← insertQueryStep o c monthly.isEmpty
  let db := { db with monthlyRepeats := insertBatch db.monthlyRepeats monthly id }
  let c ← runQuery o c
  let db := { db with permissions := db.permissions ++ [⟨id, owner, PermissionType.readWrite⟩] }
  let _ ← runQuery o c
  pure (db, (⟨id, title, description, singles, weekly, daily, monthly, []⟩ : Lesson))

/-- Lesson::create: the transaction publishes its working state only at
    commit; any failed step leaves the store at its pre-call state. -/
def Lesson.create (o : FailOracle) (db : DB) (title : String)
    (description : Option String) (singles : List SingleOccurrence)
    (daily : List DailyRepeat) (weekly : List WeeklyRepeat)
    (monthly : List MonthlyRepeat) (owner : AccountID) :
    DB × Except SqlError Lesson :=
  match createWork o db title description singles daily weekly monthly owner with
  | .ok (db1, l) => (db1, .ok l)
  | .error e => (db, .error e)

/-- Lesson::by_id (src/model/lesson.rs lines 51-90): begin, base SELECT,
    teachers SELECT (fetched before the base row is examined, as in the
    source), then — only when the base row exists — the four recurrence
    SELECTs and commit.  Read-only, so the store is not changed. -/
def Lesson.by_id (o : FailOracle) (db : DB) (lesson_id : LessonID) :
    Except SqlError (Option Lesson) := do
  let c ← runQuery o 0
  let c ← runQuery o c
  let base := lookupBase db.lessons lesson_id
  let c ← runQuery o c
  let teachers := rowsFor db.teacherLessons lesson_id
  match base with
  | none => pure none
  | some b => do
      let c ← runQuery o c
      let singles := rowsFor db.singleOccurrences lesson_id
      let c ← runQuery o c
      let daily := rowsFor db.dailyRepeats lesson_id
      let c ← runQuery o c
      let weekly := rowsFor db.weeklyRepeats lesson_id
      let c ← runQuery o c
      let monthly := rowsFor db.monthlyRepeats lesson_id
      let _ ← runQuery o c
      pure (some ⟨lesson_id, b.title, b.description, singles, weekly, daily, monthly, teachers⟩)

/-- One recurrence collection's replacement, as Repeat::update_in_transaction
    (src/model/repeat.rs lines 98-105) does it: delete all rows of the
    variant for the lesson (one query), then bulk-insert the provided rows
    (the insert query is skipped when the batch is empty).  The four
    variant stores are not under src; modelled from the spec §4.1
    "delete all existing rows of that variant for the lesson, then insert
    the provided set", matching the in-src generic Repeat. -/
def updateRows {ρ : Type} (o : FailOracle) (c : Nat) (tab : List (LessonID × ρ))
    (rows : List ρ) (l : LessonID) :
    Except SqlError (List (LessonID × ρ) × Nat) := do
  let c ← runQuery o c
  let tab := deleteFor tab l
  let c ← insertQueryStep o c rows.isEmpty
  pure (insertBatch tab rows l, c)

/-- The base UPDATE of Lesson::update: sets title and/or description on
    every row whose id matches (zero rows affected is still a success). -/
def applyBaseUpdate (lessons : List (LessonID × LessonBase)) (l : LessonID)
    (title : Option String) (description : Option (Option String)) :
    List (LessonID × LessonBase) :=
  lessons.map (fun p =>
    if p.1 = l then (p.1, ⟨title.getD p.2.title, description.getD p.2.description⟩)
    else p)

/-- The base-field step of Lesson::update (lines 150-167): the UPDATE query
    runs only when title or description is supplied. -/
def baseUpdateStep (o : FailOracle) (c : Nat) (db : DB) (l : LessonID)
    (title : Option String) (description : Option (Option String)) :
    Except SqlError (List (LessonID × LessonBase) × Nat) :=
  if title.isSome || description.isSome then
    match runQuery o c with
    | .error e => .error e
    | .ok c => .ok (applyBaseUpdate db.lessons l title description, c)
  else .ok (db.lessons, c)

/-- One optional-collection step of Lesson::update (lines 169-183): a
    supplied collection is replaced wholesale, an absent one is left
    untouched (no query runs). -/
def collectionStep {ρ : Type} (o : FailOracle) (c : Nat)
    (tab : List (LessonID × ρ)) (rows : Option (List ρ)) (l : LessonID) :
    Except SqlError (List (LessonID × ρ) × Nat) :=
  match rows with
  | some rs => updateRows o c tab rs l
  | none => Except.ok (tab, c)

/-- Transaction body of Lesson::update (src/model/lesson.rs lines 138-188):
    begin, optional base UPDATE, the four optional collection replacements,
    commit.  The teacher-link and permission tables are never touched. -/
def updateWork (o : FailOracle) (db : DB) (lesson_id : LessonID)
    (title : Option String) (singles : Option (List SingleOccurrence))
    (daily : Option (List DailyRepeat)) (weekly : Option (List WeeklyRepeat))
    (monthly : Option (List MonthlyRepeat))
    (description : Option (Option String)) : Except SqlError DB := do
  let c ← runQuery o 0
  let r1 ← baseUpdateStep o c db lesson_id title description
  let r2 ← collectionStep o r1.2 db.singleOccurrences singles lesson_id
  let r3 ← collectionStep o r2.2 db.dailyRepeats daily lesson_id
  let r4 ← collectionStep o r3.2 db.weeklyRepeats weekly lesson_id
  let r5 ← collectionStep o r4.2 db.monthlyRepeats monthly lesson_id
  let _ ← runQuery o r5.2
  pure { db with
    lessons := r1.1,
    singleOccurrences := r2.1,
    dailyRepeats := r3.1,
    weeklyRepeats := r4.1,
    monthlyRepeats := r5.1 }

/-- Lesson::update: Ok(()) on commit; on any failed step the store rolls
    back to its pre-call state.  The result carries no not-found variant. -/
def Lesson.update (o : FailOracle) (db : DB) (lesson_id : LessonID)
    (title : Option String) (singles : Option (List SingleOccurrence))
    (daily : Option (List DailyRepeat)) (weekly : Option (List WeeklyRepeat))
    (monthly : Option (List MonthlyRepeat))
    (description : Option (Option String)) : DB × Except SqlError Unit :=
  match updateWork o db lesson_id title singles daily weekly monthly description with
  | .ok db1 => (db1, .ok ())
  | .error e => (db, .error e)

/-- Deduplication performed by the SQL UNION of the id subquery. -/
def dedupIds : List LessonID → List LessonID
  | [] => []
  | x :: xs =>
      let r := dedupIds xs
      if x ∈ r then r else x :: r

/-- The union part of Lesson::for_date's id subquery (lines 206-219): the
    distinct lesson ids with at least one recurrence row matching the
    date. -/
def recurrenceIds (db : DB) (d : Date) : List LessonID :=
  dedupIds
    (((db.singleOccurrences.filter (fun p => singleMatches p.2.occurs_at d)).map (fun p => p.1)) ++
     ((db.dailyRepeats.filter (fun p => repeats_on_date_daily p.2.start_date p.2.end_date d)).map (fun p => p.1)) ++
     ((db.weeklyRepeats.filter (fun p => repeats_on_date_weekly p.2.start_date p.2.end_date p.2.week_day p.2.every d)).map (fun p => p.1)) ++
     ((db.monthlyRepeats.filter (fun p => repeats_on_date_monthly p.2.start_date p.2.end_date p.2.scheduled_time.date p.2.every d)).map (fun p => p.1)))

/-- The full id subquery of Lesson::for_date (line 220): the union filtered
    by is_read_permission(lesson_permission_for(lesson_id, account)). -/
def matchingIds (db : DB) (d : Date) (account : AccountID) : List LessonID :=
  (recurrenceIds db d).filter
    (fun l => is_read_permission (lesson_permission_for db.permissions l account))

/-- One iteration of Lesson::for_date's hydration loop (lines 229-274):
    base SELECT; when the base row is absent the id is skipped, otherwise
    the four recurrence SELECTs and the teachers SELECT build the
    aggregate. -/
def hydrateOne (o : FailOracle) (c : Nat) (db : DB) (l : LessonID) :
    Except SqlError (Option Lesson × Nat) := do
  let c ← runQuery o c
  match lookupBase db.lessons l with
  | none => pure (none, c)
  | some b => do
      let c ← runQuery o c
      let singles := rowsFor db.singleOccurrences l
      let c ← runQuery o c
      let daily := rowsFor db.dailyRepeats l
      let c ← runQuery o c
      let weekly := rowsFor db.weeklyRepeats l
      let c ← runQuery o c
      let monthly := rowsFor db.monthlyRepeats l
      let c ← runQuery o c
      let teachers := rowsFor db.teacherLessons l
      pure (some ⟨l, b.title, b.description, singles, weekly, daily, monthly, teachers⟩, c)

/-- The hydration loop over the id list, preserving query order. -/
def hydrateAll (o : FailOracle) (db : DB) :
    Nat → List LessonID → Except SqlError (List Lesson × Nat)
  | c, [] => pure ([], c)
  | c, l :: rest => do
      let (ol, c) ← hydrateOne o c db l
      let (ls, c) ← hydrateAll o db c rest
      pure (match ol with
            | some lesson => lesson :: ls
            | none => ls, c)

/-- Lesson::for_date (src/model/lesson.rs lines 198-279): begin, the id
    subquery, the per-id hydration loop, commit.  Read-only. -/
def Lesson.for_date (o : FailOracle) (db : DB) (d : Date)
    (account : AccountID) : Except SqlError (List Lesson) := do
  let c ← runQuery o 0
  let c ← runQuery o c
  let (res, c) ← hydrateAll o db c (matchingIds db d account)
  let _ ← runQuery o c
  pure res

/-- The pure value Lesson::by_id and the hydration loop compute for one id
    on a healthy store: none when the base row is absent, otherwise the
    full aggregate. -/
def hydratePure (db : DB) (l : LessonID) : Option Lesson :=
  match lookupBase db.lessons l with
  | none => none
  | some b =>
      some ⟨l, b.title, b.description, rowsFor db.singleOccurrences l,
            rowsFor db.weeklyRepeats l, rowsFor db.dailyRepeats l,
            rowsFor db.monthlyRepeats l, rowsFor db.teacherLessons l⟩

/-- The hydration loop's result on a healthy store: ids whose base row is
    absent contribute nothing. -/
def hydrateList (db : DB) (ids : List LessonID) : List Lesson :=
  ids.filterMap (hydratePure db)

/-- The pure effect of one optional-collection step of Lesson::update. -/
def applyColl {ρ : Type} (tab : List (LessonID × ρ)) (rows : Option (List ρ))
    (l : LessonID) : List (LessonID × ρ) :=
  match rows with
  | some rs => insertBatch (deleteFor tab l) rs l
  | none => tab

/-- All grants recorded for one lesson, as (account, permission) pairs. -/
def permsFor (perms : List PermissionRow) (l : LessonID) :
    List (AccountID × PermissionType) :=
  perms.filterMap (fun p =>
    if p.lesson_id = l then some (p.account_id, p.permission_type) else none)

/-- Freshness of the id generator: no stored row references an id at or
    above the generator's next value. -/
def DB.freshIds (db : DB) : Prop :=
  (∀ p ∈ db.lessons, p.1 < db.nextLessonId) ∧
  (∀ p ∈ db.singleOccurrences, p.1 < db.nextLessonId) ∧
  (∀ p ∈ db.dailyRepeats, p.1 < db.nextLessonId) ∧
  (∀ p ∈ db.weeklyRepeats, p.1 < db.nextLessonId) ∧
  (∀ p ∈ db.monthlyRepeats, p.1 < db.nextLessonId) ∧
  (∀ p ∈ db.teacherLessons, p.1 < db.nextLessonId) ∧
  (∀ p ∈ db.permissions, p.lesson_id < db.nextLessonId)

/- ------------------------------------------------------------------ -/
/- The authentication middleware, src/middleware/authentication.rs.    -/
/- ------------------------------------------------------------------ -/

abbrev Headers := List (String × String)

/-- Modelled from the spec: the claim type produced by the out-of-src token
    module — §3 "the decoded result of a verified credential: account_id
    plus an opaque inner payload".  The middleware reads
    application_claim.inner.account_id. -/
structure ClaimInner where
  account_id : AccountID
  payload : Nat
  deriving DecidableEq, Repr

structure ApplicationClaim where
  inner : ClaimInner
  deriving DecidableEq, Repr

/-- Modelled from the spec: failures of the out-of-src credential
    verifier. -/
inductive AuthError
  | missingToken
  | invalidToken
  deriving DecidableEq, Repr

/-- Typed request extensions: one slot per inserted type, as the two
    extensions.insert calls of the middleware populate them. -/
structure Extensions where
  account_id : Option AccountID
  claim : Option ApplicationClaim
  deriving DecidableEq, Repr

/-- An actix ServiceRequest: headers, typed extensions, opaque payload. -/
structure ServiceRequest where
  headers : Headers
  extensions : Extensions
  payload : Nat
  deriving DecidableEq, Repr

/-- The pipeline error type: an authentication error converted via
    Error::from, or an error of the wrapped stage. -/
inductive PipelineError
  | auth (e : AuthError)
  | handler (code : Nat)
  deriving DecidableEq, Repr

abbrev ServiceResponse := Nat

/-- AuthenticationMiddleware::call (src/middleware/authentication.rs lines
    50-68).  verify stands for the out-of-src
    token::authenticate_claim_from_headers (modelled from the spec as
    verify(rawToken) → Result<Claim, AuthError>); service is the wrapped
    stage.  On success the account id and the claim are inserted into the
    request's extensions and the same request continues to the wrapped
    stage; on failure the call short-circuits with the converted error. -/
def authMiddlewareCall (verify : Headers → Except AuthError ApplicationClaim)
    (service : ServiceRequest → Except PipelineError ServiceResponse)
    (req : ServiceRequest) : Except PipelineError ServiceResponse :=
  match verify req.headers with
  | .ok application_claim =>
      let new_req := { req with
        extensions := ⟨some application_claim.inner.account_id, some application_claim⟩ }
      service new_req
  | .error e => .error (.auth e)

/- ------------------------------------------------------------------ -/
/- Elementary lemmas about the store primitives.                       -/
/- ------------------------------------------------------------------ -/

theorem exceptBind_ok {α β ε : Type} (a : α) (f : α → Except ε β) :
    (Except.ok a >>= f) = f a := rfl

theorem exceptBind_error {α β ε : Type} (e : ε) (f : α → Except ε β) :
    ((Except.error e : Except ε α) >>= f) = Except.error e := rfl

theorem exceptPure {α ε : Type} (a : α) : (pure a : Except ε α) = Except.ok a := rfl

theorem runQuery_noFail (c : Nat) : runQuery noFail c = Except.ok (c + 1) := rfl

theorem insertQueryStep_noFail (c : Nat) (b : Bool) :
    insertQueryStep noFail c b = Except.ok (if b then c else c + 1) := by
  cases b <;> rfl

theorem rowsFor_append {ρ : Type} (t1 t2 : List (LessonID × ρ)) (l : LessonID) :
    rowsFor (t1 ++ t2) l = rowsFor t1 l ++ rowsFor t2 l :=
  List.filterMap_append t1 t2 _

theorem rowsFor_map_self {ρ : Type} (rows : List ρ) (l : LessonID) :
    rowsFor (rows.map (fun r => (l, r))) l = rows := by
  induction rows with
  | nil => rfl
  | cons r rs ih => simp [rowsFor] at ih ⊢; exact ih

theorem rowsFor_eq_nil {ρ : Type} (t : List (LessonID × ρ)) (l : LessonID)
    (h : ∀ p ∈ t, p.1 ≠ l) : rowsFor t l = [] := by
  induction t with
  | nil => rfl
  | cons p ps ih =>
      simp only [rowsFor, List.filterMap_cons]
      rw [if_neg (h p (List.mem_cons_self p ps))]
      exact ih (fun q hq => h q (List.mem_cons_of_mem p hq))

theorem rowsFor_deleteFor {ρ : Type} (t : List (LessonID × ρ)) (l : LessonID) :
    rowsFor (deleteFor t l) l = [] := by
  apply rowsFor_eq_nil
  intro p hp
  have := List.of_mem_filter hp
  simpa using this

theorem deleteFor_append {ρ : Type} (t1 t2 : List (LessonID × ρ)) (l : LessonID) :
    deleteFor (t1 ++ t2) l = deleteFor t1 l ++ deleteFor t2 l :=
  List.filter_append t1 t2

theorem deleteFor_map_self {ρ : Type} (rows : List ρ) (l : LessonID) :
    deleteFor (rows.map (fun r => (l, r))) l = [] := by
  induction rows with
  | nil => rfl
  | cons r rs ih => simp_all [deleteFor]

theorem deleteFor_idem {ρ : Type} (t : List (LessonID × ρ)) (l : LessonID) :
    deleteFor (deleteFor t l) l = deleteFor t l := by
  simp [deleteFor, List.filter_filter]

theorem lookupBase_append_self (t : List (LessonID × LessonBase)) (l : LessonID)
    (b : LessonBase) (h : ∀ p ∈ t, p.1 ≠ l) :
    lookupBase (t ++ [(l, b)]) l = some b := by
  induction t with
  | nil => simp [lookupBase]
  | cons p ps ih =>
      simp only [List.cons_append, lookupBase]
      rw [if_neg (h p (List.mem_cons_self p ps))]
      exact ih (fun q hq => h q (List.mem_cons_of_mem p hq))

theorem permsFor_append (p1 p2 : List PermissionRow) (l : LessonID) :
    permsFor (p1 ++ p2) l = permsFor p1 l ++ permsFor p2 l :=
  List.filterMap_append p1 p2 _

theorem permsFor_eq_nil (perms : List PermissionRow) (l : LessonID)
    (h : ∀ p ∈ perms, p.lesson_id ≠ l) : permsFor perms l = [] := by
  induction perms with
  | nil => rfl
  | cons p ps ih =>
      simp only [permsFor, List.filterMap_cons]
      rw [if_neg (h p (List.mem_cons_self p ps))]
      exact ih (fun q hq => h q (List.mem_cons_of_mem p hq))

theorem mem_dedupIds (l : List LessonID) : ∀ x, x ∈ dedupIds l ↔ x ∈ l := by
  induction l with
  | nil => intro x; simp [dedupIds]
  | cons a as ih =>
      intro x
      by_cases hmem : a ∈ dedupIds as
      · simp only [dedupIds, if_pos hmem]
        rw [ih x]
        constructor
        · exact fun hx => List.mem_cons_of_mem a hx
        · intro hx
          rcases List.mem_cons.mp hx with h | h
          · subst h; exact (ih x).mp hmem
          · exact h
      · simp only [dedupIds, if_neg hmem]
        rw [List.mem_cons, List.mem_cons, ih x]

theorem hydratePure_id (db : DB) (l : LessonID) (les : Lesson)
    (h : hydratePure db l = some les) : les.id = l := by
  unfold hydratePure at h
  cases hb : lookupBase db.lessons l <;> rw [hb] at h
  · exact absurd h (by simp)
  · cases h; rfl

theorem mem_hydrateList (db : DB) (ids : List LessonID) (les : Lesson) :
    les ∈ hydrateList db ids ↔ ∃ i ∈ ids, hydratePure db i = some les := by
  simp [hydrateList, List.mem_filterMap]

theorem filterMap_drop_none {α β : Type} [DecidableEq α] (f : α → Option β)
    (a : α) (hf : f a = none) (l : List α) :
    l.filterMap f = (l.filter (fun x => decide (x ≠ a))).filterMap f := by
  induction l with
  | nil => rfl
  | cons x xs ih =>
      by_cases hx : x = a
      · subst hx
        simp [List.filterMap_cons, hf, ih]
      · simp [List.filterMap_cons, List.filter_cons, hx, ih]

/- ------------------------------------------------------------------ -/
/- Characterisation of the operations' runs.                           -/
/- ------------------------------------------------------------------ -/

theorem createWork_noFail (db : DB) (title : String) (descr : Option String)
    (s : List SingleOccurrence) (d : List DailyRepeat) (w : List WeeklyRepeat)
    (m : List MonthlyRepeat) (owner : AccountID) :
    createWork noFail db title descr s d w m owner =
      Except.ok
        ({ db with
            lessons := db.lessons ++ [(db.nextLessonId, ⟨title, descr⟩)],
            nextLessonId := db.nextLessonId + 1,
            singleOccurrences := insertBatch db.singleOccurrences s db.nextLessonId,
            dailyRepeats := insertBatch db.dailyRepeats d db.nextLessonId,
            weeklyRepeats := insertBatch db.weeklyRepeats w db.nextLessonId,
            monthlyRepeats := insertBatch db.monthlyRepeats m db.nextLessonId,
            permissions := db.permissions ++ [⟨db.nextLessonId, owner, PermissionType.readWrite⟩] },
         (⟨db.nextLessonId, title, descr, s, w, d, m, []⟩ : Lesson)) := by
  simp only [createWork, runQuery_noFail, insertQueryStep_noFail, exceptBind_ok,
    exceptPure, apply_ite (fun x => x >>= _), ite_self]

theorem baseUpdateStep_noFail (c : Nat) (db : DB) (l : LessonID)
    (t : Option String) (descr : Option (Option String)) :
    baseUpdateStep noFail c db l t descr =
      Except.ok
        (if t.isSome || descr.isSome then applyBaseUpdate db.lessons l t descr
         else db.lessons,
         if t.isSome || descr.isSome then c + 1 else c) := by
  cases h : (t.isSome || descr.isSome) <;>
    simp [baseUpdateStep, h, runQuery, noFail]

theorem collectionStep_noFail {ρ : Type} (c : Nat) (tab : List (LessonID × ρ))
    (rows : Option (List ρ)) (l : LessonID) :
    collectionStep noFail c tab rows l =
      Except.ok
        (applyColl tab rows l,
         match rows with
         | none => c
         | some rs => if rs.isEmpty then c + 1 else c + 2) := by
  cases rows with
  | none => rfl
  | some rs =>
      cases h : rs.isEmpty <;>
        simp [collectionStep, updateRows, runQuery_noFail, insertQueryStep_noFail,
          h, exceptBind_ok, exceptPure, applyColl]

theorem updateWork_noFail (db : DB) (l : LessonID) (t : Option String)
    (s : Option (List SingleOccurrence)) (d : Option (List DailyRepeat))
    (w : Option (List WeeklyRepeat)) (m : Option (List MonthlyRepeat))
    (descr : Option (Option String)) :
    updateWork noFail db l t s d w m descr =
      Except.ok
        { db with
            lessons := if t.isSome || descr.isSome
              then applyBaseUpdate db.lessons l t descr else db.lessons,
            singleOccurrences := applyColl db.singleOccurrences s l,
            dailyRepeats := applyColl db.dailyRepeats d l,
            weeklyRepeats := applyColl db.weeklyRepeats w l,
            monthlyRepeats := applyColl db.monthlyRepeats m l } := by
  simp only [updateWork, runQuery_noFail, baseUpdateStep_noFail,
    collectionStep_noFail, exceptBind_ok, exceptPure]

theorem updateWork_ok (o : FailOracle) (db : DB) (l : LessonID)
    (t : Option String) (s : Option (List SingleOccurrence))
    (d : Option (List DailyRepeat)) (w : Option (List WeeklyRepeat))
    (m : Option (List MonthlyRepeat)) (descr : Option (Option String))
    (db1 : DB) (h : updateWork o db l t s d w m descr = Except.ok db1) :
    db1 = { db with
        lessons := if t.isSome || descr.isSome
          then applyBaseUpdate db.lessons l t descr else db.lessons,
        singleOccurrences := applyColl db.singleOccurrences s l,
        dailyRepeats := applyColl db.dailyRepeats d l,
        weeklyRepeats := applyColl db.weeklyRepeats w l,
        monthlyRepeats := applyColl db.monthlyRepeats m l } := by
  have hbase : ∀ c r, baseUpdateStep o c db l t descr = Except.ok r →
      r.1 = (if t.isSome || descr.isSome
        then applyBaseUpdate db.lessons l t descr else db.lessons) := by
    intro c r hr
    unfold baseUpdateStep at hr
    by_cases hc : (t.isSome || descr.isSome) = true
    · rw [if_pos hc] at hr
      rw [if_pos hc]
      cases hq : runQuery o c <;> rw [hq] at hr
      · exact absurd hr (by simp)
      · cases hr; rfl
    · rw [if_neg hc] at hr
      rw [if_neg hc]
      cases hr; rfl
  have hcoll : ∀ (ρ : Type) (c : Nat) (tab : List (LessonID × ρ)) rows r,
      collectionStep o c tab rows l = Except.ok r → r.1 = applyColl tab rows l := by
    intro ρ c tab rows r hr
    cases rows with
    | none => cases hr; rfl
    | some rs =>
        simp only [collectionStep, updateRows, applyColl] at hr ⊢
        cases hq : runQuery o c <;> rw [hq] at hr
        · exact absurd hr (by simp [exceptBind_error])
        · rw [exceptBind_ok] at hr
          cases hi : insertQueryStep o _ rs.isEmpty <;> rw [hi] at hr
          · exact absurd hr (by simp [exceptBind_error])
          · rw [exceptBind_ok] at hr
            cases hr; rfl
  unfold updateWork at h
  cases h0 : runQuery o 0 <;> simp only [h0, exceptBind_error, exceptBind_ok] at h
  case error => exact absurd h (by simp)
  case ok c0 =>
  cases h1 : baseUpdateStep o c0 db l t descr <;>
    simp only [h1, exceptBind_error, exceptBind_ok] at h
  case error => exact absurd h (by simp)
  case ok r1 =>
  cases h2 : collectionStep o r1.2 db.singleOccurrences s l <;>
    simp only [h2, exceptBind_error, exceptBind_ok] at h
  case error => exact absurd h (by simp)
  case ok r2 =>
  cases h3 : collectionStep o r2.2 db.dailyRepeats d l <;>
    simp only [h3, exceptBind_error, exceptBind_ok] at h
  case error => exact absurd h (by simp)
  case ok r3 =>
  cases h4 : collectionStep o r3.2 db.weeklyRepeats w l <;>
    simp only [h4, exceptBind_error, exceptBind_ok] at h
  case error => exact absurd h (by simp)
  case ok r4 =>
  cases h5 : collectionStep o r4.2 db.monthlyRepeats m l <;>
    simp only [h5, exceptBind_error, exceptBind_ok] at h
  case error => exact absurd h (by simp)
  case ok r5 =>
  cases h6 : runQuery o r5.2 <;>
    simp only [h6, exceptBind_error, exceptBind_ok, exceptPure] at h
  case error => exact absurd h (by simp)
  case ok c6 =>
  cases h
  rw [hbase _ _ h1, hcoll _ _ _ _ _ h2, hcoll _ _ _ _ _ h3,
    hcoll _ _ _ _ _ h4, hcoll _ _ _ _ _ h5]

theorem by_id_noFail (db : DB) (l : LessonID) :
    Lesson.by_id noFail db l = Except.ok (hydratePure db l) := by
  unfold Lesson.by_id hydratePure
  cases hb : lookupBase db.lessons l <;>
    simp [hb, runQuery_noFail, exceptBind_ok, exceptPure]

theorem hydrateOne_noFail (c : Nat) (db : DB) (l : LessonID) :
    hydrateOne noFail c db l =
      Except.ok (hydratePure db l,
        match lookupBase db.lessons l with
        | none => c + 1
        | some _ => c + 6) := by
  unfold hydrateOne hydratePure
  cases hb : lookupBase db.lessons l <;>
    simp [hb, runQuery_noFail, exceptBind_ok, exceptPure]

theorem hydrateAll_noFail (db : DB) (ids : List LessonID) :
    ∀ c, ∃ cf, hydrateAll noFail db c ids = Except.ok (hydrateList db ids, cf) := by
  induction ids with
  | nil => intro c; exact ⟨c, rfl⟩
  | cons i rest ih =>
      intro c
      obtain ⟨cf, hf⟩ := ih (match lookupBase db.lessons i with
        | none => c + 1
        | some _ => c + 6)
      refine ⟨cf, ?_⟩
      simp only [hydrateAll, hydrateOne_noFail, exceptBind_ok, hf, exceptPure,
        hydrateList, List.filterMap_cons]
      cases hp : hydratePure db i <;> simp [hp, hydrateList]

theorem for_date_noFail (db : DB) (d : Date) (account : AccountID) :
    Lesson.for_date noFail db d account =
      Except.ok (hydrateList db (matchingIds db d account)) := by
  obtain ⟨cf, hf⟩ := hydrateAll_noFail db (matchingIds db d account) 2
  simp only [Lesson.for_date, runQuery_noFail, exceptBind_ok, hf, exceptPure]

theorem mapCongr {α β : Type} {f g : α → β} :
    ∀ l : List α, (∀ a ∈ l, f a = g a) → l.map f = l.map g := by
  intro l h
  induction l with
  | nil => rfl
  | cons a as ih =>
      simp only [List.map_cons]
      rw [h a (List.mem_cons_self a as),
        ih (fun b hb => h b (List.mem_cons_of_mem a hb))]

theorem applyBaseUpdate_map_title_none (lessons : List (LessonID × LessonBase))
    (l : LessonID) (descr : Option (Option String)) :
    (applyBaseUpdate lessons l none descr).map (fun p => (p.1, p.2.title)) =
      lessons.map (fun p => (p.1, p.2.title)) := by
  simp only [applyBaseUpdate, List.map_map]
  apply mapCongr
  intro p hp
  by_cases h : p.1 = l <;> simp [Function.comp, h]

theorem applyBaseUpdate_map_descr_none (lessons : List (LessonID × LessonBase))
    (l : LessonID) (t : Option String) :
    (applyBaseUpdate lessons l t none).map (fun p => (p.1, p.2.description)) =
      lessons.map (fun p => (p.1, p.2.description)) := by
  simp only [applyBaseUpdate, List.map_map]
  apply mapCongr
  intro p hp
  by_cases h : p.1 = l <;> simp [Function.comp, h]

/- ------------------------------------------------------------------ -/
/- Concrete store states used by counterexamples and witnesses.        -/
/- ------------------------------------------------------------------ -/

/-- A store with no rows at all. -/
def dbEmpty : DB := ⟨[], 0, [], [], [], [], [], []⟩

/-- A single occurrence on 2024-02-01 01:00. -/
def s1 : SingleOccurrence := ⟨⟨⟨2024, 2, 1⟩, 3600⟩⟩

/-- A single occurrence on 2024-03-10 00:00. -/
def s2 : SingleOccurrence := ⟨⟨⟨2024, 3, 10⟩, 0⟩⟩

/-- An unbounded daily repeat starting 2024-01-01. -/
def dr1 : DailyRepeat := ⟨⟨2024, 1, 1⟩, none, 0⟩

/-- A store with one lesson (id 1, one single occurrence, one daily repeat)
    and a read-write grant for account 7; account 8 has no grant. -/
def dbW : DB :=
  ⟨[(1, ⟨"piano", none⟩)], 2, [(1, s1)], [(1, dr1)], [], [], [],
   [⟨1, 7, PermissionType.readWrite⟩]⟩

/-- The query date used by the witnesses. -/
def dW : Date := ⟨2024, 1, 5⟩

/-- The hydrated aggregate of lesson 1 of dbW. -/
def lessonW : Lesson := ⟨1, "piano", none, [s1], [], [dr1], [], []⟩

/-- A store whose single-occurrence and permission tables reference lesson
    id 3 although no base row for 3 exists. -/
def dbC9 : DB :=
  ⟨[], 4, [(3, ⟨⟨⟨2024, 1, 5⟩, 600⟩⟩)], [], [], [], [],
   [⟨3, 7, PermissionType.readWrite⟩]⟩

/-- A store holding a single occurrence stored at 2024-01-02 00:00:00 for
    lesson 1, readable by account 7. -/
def dbC2 : DB :=
  ⟨[(1, ⟨"solfeggio", none⟩)], 2, [(1, ⟨⟨⟨2024, 1, 2⟩, 0⟩⟩)], [], [], [], [],
   [⟨1, 7, PermissionType.readWrite⟩]⟩

/-- An oracle that fails the base INSERT of a create call (query index 1)
    and nothing else. -/
def failBaseInsert : FailOracle := fun n => n == 1

def claimW : ApplicationClaim := ⟨⟨7, 0⟩⟩

def verifyOkW : Headers → Except AuthError ApplicationClaim := fun _ => .ok claimW

def verifyFailW : Headers → Except AuthError ApplicationClaim :=
  fun _ => .error .invalidToken

def serviceW : ServiceRequest → Except PipelineError ServiceResponse :=
  fun r => .ok r.payload

def reqW : ServiceRequest := ⟨[("authorization", "tok")], ⟨none, none⟩, 42⟩

/- ------------------------------------------------------------------ -/
/- The claims.                                                         -/
/- ------------------------------------------------------------------ -/

/-- Claim C1, counterexample: on a store with no base row for lesson id 0,
    Update supplying a new title returns plain success, not a "not found"
    outcome — Lesson::update's UPDATE .. WHERE id = $1 simply affects zero
    rows and the call commits with Ok(()). -/
theorem update_missing_lesson_returns_success_cex :
    lookupBase dbEmpty.lessons 0 = none ∧
    (Lesson.update noFail dbEmpty 0 (some "title") none none none none none).2 =
      Except.ok () :=
  ⟨rfl, rfl⟩

/-- Claim C1, amended: Update carries no distinguished "not found" outcome.
    When no storage query fails it returns success for every lesson id,
    whether or not a base row exists (a missing id makes the base UPDATE
    affect zero rows and the collection replacements operate on empty
    row sets). -/
theorem update_has_no_not_found_outcome (db : DB) (l : LessonID)
    (t : Option String) (s : Option (List SingleOccurrence))
    (d : Option (List DailyRepeat)) (w : Option (List WeeklyRepeat))
    (m : Option (List MonthlyRepeat)) (descr : Option (Option String)) :
    (Lesson.update noFail db l t s d w m descr).2 = Except.ok () := by
  simp [Lesson.update, updateWork_noFail]

/-- Claim C2, divergence witness: a single occurrence stored at exactly
    midnight of the day after the query date has a date component different
    from the query date, yet the for_date filter
    (occurs_at BETWEEN $1 AND $1 + 1, inclusive at both ends) accepts it and
    resolveForDate returns the lesson. -/
theorem single_occurrence_midnight_boundary_bug :
    Timestamp.dayNumber ⟨⟨2024, 1, 2⟩, 0⟩ ≠ Date.toDays ⟨2024, 1, 1⟩ ∧
    singleMatches ⟨⟨2024, 1, 2⟩, 0⟩ ⟨2024, 1, 1⟩ = true ∧
    Lesson.for_date noFail dbC2 ⟨2024, 1, 1⟩ 7 =
      Except.ok [⟨1, "solfeggio", none, [⟨⟨⟨2024, 1, 2⟩, 0⟩⟩], [], [], [], []⟩] :=
  ⟨by decide, rfl, rfl⟩

/-- Claim C6: whenever any step of Create fails — begin, the base insert,
    a recurrence insert, the permission grant, or commit — the store
    visible after the call equals the store before it: the transaction
    rolls back and no partial Lesson is persisted. -/
theorem create_failure_rolls_back (o : FailOracle) (db : DB) (title : String)
    (descr : Option String) (s : List SingleOccurrence) (d : List DailyRepeat)
    (w : List WeeklyRepeat) (m : List MonthlyRepeat) (owner : AccountID)
    (e : SqlError)
    (h : (Lesson.create o db title descr s d w m owner).2 = Except.error e) :
    (Lesson.create o db title descr s d w m owner).1 = db := by
  cases hc : createWork o db title descr s d w m owner with
  | ok p =>
      obtain ⟨db1, les⟩ := p
      simp [Lesson.create, hc] at h
  | error e2 => simp [Lesson.create, hc]

/-- Witness for claim C6: with an oracle failing the base INSERT, create on
    dbW errors and leaves the store exactly as it was. -/
theorem create_failure_rolls_back_witness :
    (Lesson.create failBaseInsert dbW "x" none [] [] [] [] 7).2 =
      Except.error (SqlError.queryFailed 1) ∧
    (Lesson.create failBaseInsert dbW "x" none [] [] [] [] 7).1 = dbW :=
  ⟨rfl, create_failure_rolls_back failBaseInsert dbW "x" none [] [] [] [] 7
    (SqlError.queryFailed 1) rfl⟩

/-- Claim C3: a successful Update replaces every supplied recurrence
    collection wholesale — afterwards the stored rows of that variant for
    the lesson are exactly the supplied set (so an empty collection clears
    the kind), rows of other lessons in that variant's table are untouched,
    and every collection that was not supplied is unchanged. -/
theorem update_supplied_collection_replaces (o : FailOracle) (db : DB)
    (l : LessonID) (t : Option String) (s : Option (List SingleOccurrence))
    (d : Option (List DailyRepeat)) (w : Option (List WeeklyRepeat))
    (m : Option (List MonthlyRepeat)) (descr : Option (Option String))
    (h : (Lesson.update o db l t s d w m descr).2 = Except.ok ()) :
    (∀ rows, s = some rows →
        rowsFor (Lesson.update o db l t s d w m descr).1.singleOccurrences l = rows ∧
        deleteFor (Lesson.update o db l t s d w m descr).1.singleOccurrences l =
          deleteFor db.singleOccurrences l) ∧
    (∀ rows, d = some rows →
        rowsFor (Lesson.update o db l t s d w m descr).1.dailyRepeats l = rows ∧
        deleteFor (Lesson.update o db l t s d w m descr).1.dailyRepeats l =
          deleteFor db.dailyRepeats l) ∧
    (∀ rows, w = some rows →
        rowsFor (Lesson.update o db l t s d w m descr).1.weeklyRepeats l = rows ∧
        deleteFor (Lesson.update o db l t s d w m descr).1.weeklyRepeats l =
          deleteFor db.weeklyRepeats l) ∧
    (∀ rows, m = some rows →
        rowsFor (Lesson.update o db l t s d w m descr).1.monthlyRepeats l = rows ∧
        deleteFor (Lesson.update o db l t s d w m descr).1.monthlyRepeats l =
          deleteFor db.monthlyRepeats l) ∧
    (s = none → (Lesson.update o db l t s d w m descr).1.singleOccurrences =
        db.singleOccurrences) ∧
    (d = none → (Lesson.update o db l t s d w m descr).1.dailyRepeats =
        db.dailyRepeats) ∧
    (w = none → (Lesson.update o db l t s d w m descr).1.weeklyRepeats =
        db.weeklyRepeats) ∧
    (m = none → (Lesson.update o db l t s d w m descr).1.monthlyRepeats =
        db.monthlyRepeats) := by
  cases hu : updateWork o db l t s d w m descr with
  | error e => simp [Lesson.update, hu] at h
  | ok db1 =>
      have hchar := updateWork_ok o db l t s d w m descr db1 hu
      have hfst : (Lesson.update o db l t s d w m descr).1 = db1 := by
        simp [Lesson.update, hu]
      rw [hfst, hchar]
      refine ⟨?_, ?_, ?_, ?_, ?_, ?_, ?_, ?_⟩ <;>
        first
        | (intro rows hrow
           subst hrow
           constructor
           · simp [applyColl, insertBatch, rowsFor_append, rowsFor_deleteFor,
               rowsFor_map_self]
           · simp [applyColl, insertBatch, deleteFor_append, deleteFor_idem,
               deleteFor_map_self])
        | (intro hnone
           subst hnone
           simp [applyColl])

/-- Witness for claim C3: replacing lesson 1's single occurrences of dbW by
    the one-element set [s2] yields exactly [s2] for lesson 1 and leaves the
    daily repeats unchanged. -/
theorem update_supplied_collection_replaces_witness :
    (Lesson.update noFail dbW 1 none (some [s2]) none none none none).2 =
      Except.ok () ∧
    rowsFor (Lesson.update noFail dbW 1 none (some [s2]) none none none
      none).1.singleOccurrences 1 = [s2] ∧
    (Lesson.update noFail dbW 1 none (some [s2]) none none none
      none).1.dailyRepeats = dbW.dailyRepeats :=
  ⟨rfl,
   ((update_supplied_collection_replaces noFail dbW 1 none (some [s2]) none
      none none none rfl).1 [s2] rfl).1,
   (update_supplied_collection_replaces noFail dbW 1 none (some [s2]) none
      none none none rfl).2.2.2.2.2.1 rfl⟩

/-- Claim C4: in a successful Update every absent (None) input leaves the
    corresponding stored data unchanged — an absent title leaves every
    stored title as it was, an absent description likewise, and each absent
    recurrence collection leaves its whole table unchanged. -/
theorem update_absent_fields_unchanged (o : FailOracle) (db : DB)
    (l : LessonID) (t : Option String) (s : Option (List SingleOccurrence))
    (d : Option (List DailyRepeat)) (w : Option (List WeeklyRepeat))
    (m : Option (List MonthlyRepeat)) (descr : Option (Option String))
    (h : (Lesson.update o db l t s d w m descr).2 = Except.ok ()) :
    (t = none →
        (Lesson.update o db l t s d w m descr).1.lessons.map
            (fun p => (p.1, p.2.title)) =
          db.lessons.map (fun p => (p.1, p.2.title))) ∧
    (descr = none →
        (Lesson.update o db l t s d w m descr).1.lessons.map
            (fun p => (p.1, p.2.description)) =
          db.lessons.map (fun p => (p.1, p.2.description))) ∧
    (s = none → (Lesson.update o db l t s d w m descr).1.singleOccurrences =
        db.singleOccurrences) ∧
    (d = none → (Lesson.update o db l t s d w m descr).1.dailyRepeats =
        db.dailyRepeats) ∧
    (w = none → (Lesson.update o db l t s d w m descr).1.weeklyRepeats =
        db.weeklyRepeats) ∧
    (m = none → (Lesson.update o db l t s d w m descr).1.monthlyRepeats =
        db.monthlyRepeats) := by
  cases hu : updateWork o db l t s d w m descr with
  | error e => simp [Lesson.update, hu] at h
  | ok db1 =>
      have hchar := updateWork_ok o db l t s d w m descr db1 hu
      have hfst : (Lesson.update o db l t s d w m descr).1 = db1 := by
        simp [Lesson.update, hu]
      rw [hfst, hchar]
      refine ⟨?_, ?_, ?_, ?_, ?_, ?_⟩
      · intro ht
        subst ht
        cases descr with
        | none => simp
        | some dd => simp [applyBaseUpdate_map_title_none]
      · intro hd
        subst hd
        cases t with
        | none => simp
        | some tt => simp [applyBaseUpdate_map_descr_none]
      all_goals (intro hnone; subst hnone; simp [applyColl])

/-- Witness for claim C4: an Update of dbW supplying only a new title
    leaves the single occurrences and the stored descriptions unchanged. -/
theorem update_absent_fields_unchanged_witness :
    (Lesson.update noFail dbW 1 (some "x") none none none none none).2 =
      Except.ok () ∧
    (Lesson.update noFail dbW 1 (some "x") none none none none
      none).1.singleOccurrences = dbW.singleOccurrences ∧
    (Lesson.update noFail dbW 1 (some "x") none none none none
      none).1.lessons.map (fun p => (p.1, p.2.description)) =
      dbW.lessons.map (fun p => (p.1, p.2.description)) :=
  ⟨rfl,
   (update_absent_fields_unchanged noFail dbW 1 (some "x") none none none
      none none rfl).2.2.1 rfl,
   (update_absent_fields_unchanged noFail dbW 1 (some "x") none none none
      none none rfl).2.1 rfl⟩

/-- Claim C5: on a healthy store with a fresh id generator, Create returns
    the new Lesson with the generated id and an empty teacher list, reading
    that id back returns exactly the Lesson Create returned, and the
    permission table holds exactly one grant for the new lesson: a
    read-write grant for the owner. -/
theorem create_then_read_roundtrip (db : DB) (title : String)
    (descr : Option String) (s : List SingleOccurrence) (d : List DailyRepeat)
    (w : List WeeklyRepeat) (m : List MonthlyRepeat) (owner : AccountID)
    (h : db.freshIds) :
    (Lesson.create noFail db title descr s d w m owner).2 =
      Except.ok (⟨db.nextLessonId, title, descr, s, w, d, m, []⟩ : Lesson) ∧
    Lesson.by_id noFail (Lesson.create noFail db title descr s d w m owner).1
        db.nextLessonId =
      Except.ok (some (⟨db.nextLessonId, title, descr, s, w, d, m, []⟩ : Lesson)) ∧
    permsFor (Lesson.create noFail db title descr s d w m owner).1.permissions
        db.nextLessonId = [(owner, PermissionType.readWrite)] := by
  obtain ⟨hL, hS, hD, hW, hM, hT, hP⟩ := h
  have neL : ∀ p ∈ db.lessons, p.1 ≠ db.nextLessonId :=
    fun p hp => Nat.ne_of_lt (hL p hp)
  have neS : ∀ p ∈ db.singleOccurrences, p.1 ≠ db.nextLessonId :=
    fun p hp => Nat.ne_of_lt (hS p hp)
  have neD : ∀ p ∈ db.dailyRepeats, p.1 ≠ db.nextLessonId :=
    fun p hp => Nat.ne_of_lt (hD p hp)
  have neW : ∀ p ∈ db.weeklyRepeats, p.1 ≠ db.nextLessonId :=
    fun p hp => Nat.ne_of_lt (hW p hp)
  have neM : ∀ p ∈ db.monthlyRepeats, p.1 ≠ db.nextLessonId :=
    fun p hp => Nat.ne_of_lt (hM p hp)
  have neT : ∀ p ∈ db.teacherLessons, p.1 ≠ db.nextLessonId :=
    fun p hp => Nat.ne_of_lt (hT p hp)
  have neP : ∀ p ∈ db.permissions, p.lesson_id ≠ db.nextLessonId :=
    fun p hp => Nat.ne_of_lt (hP p hp)
  have hc := createWork_noFail db title descr s d w m owner
  refine ⟨by simp only [Lesson.create, hc], ?_, ?_⟩ <;> simp only [Lesson.create, hc]
  · rw [by_id_noFail]
    simp only [hydratePure]
    rw [lookupBase_append_self db.lessons db.nextLessonId ⟨title, descr⟩ neL]
    simp only [insertBatch, rowsFor_append, rowsFor_map_self,
      rowsFor_eq_nil db.singleOccurrences db.nextLessonId neS,
      rowsFor_eq_nil db.dailyRepeats db.nextLessonId neD,
      rowsFor_eq_nil db.weeklyRepeats db.nextLessonId neW,
      rowsFor_eq_nil db.monthlyRepeats db.nextLessonId neM,
      rowsFor_eq_nil db.teacherLessons db.nextLessonId neT,
      List.nil_append]
  · rw [permsFor_append, permsFor_eq_nil db.permissions db.nextLessonId neP]
    simp [permsFor]

/-- Witness for claim C5: creating a lesson on the empty store and reading
    id 0 back returns the identical aggregate, with the owner's single
    read-write grant. -/
theorem create_then_read_roundtrip_witness :
    dbEmpty.freshIds ∧
    (Lesson.create noFail dbEmpty "math" none [s2] [dr1] [] [] 5).2 =
      Except.ok (⟨0, "math", none, [s2], [], [dr1], [], []⟩ : Lesson) ∧
    Lesson.by_id noFail
        (Lesson.create noFail dbEmpty "math" none [s2] [dr1] [] [] 5).1 0 =
      Except.ok (some (⟨0, "math", none, [s2], [], [dr1], [], []⟩ : Lesson)) ∧
    permsFor (Lesson.create noFail dbEmpty "math" none [s2] [dr1] [] []
        5).1.permissions 0 = [(5, PermissionType.readWrite)] :=
  ⟨by simp [DB.freshIds, dbEmpty],
   create_then_read_roundtrip dbEmpty "math" none [s2] [dr1] [] [] 5
     (by simp [DB.freshIds, dbEmpty])⟩

/-- Claim C7: resolveForDate never returns a lesson to an account whose
    permission level for it is none, even when a recurrence row matches the
    date; and whenever the account holds any grant (read or read-write),
    a lesson with a matching recurrence row and an existing base row is
    contained in the result. -/
theorem for_date_respects_permissions (db : DB) (d : Date)
    (account : AccountID) (l : LessonID) (ls : List Lesson)
    (h : Lesson.for_date noFail db d account = Except.ok ls) :
    (lesson_permission_for db.permissions l account = none →
        ∀ les ∈ ls, les.id ≠ l) ∧
    (∀ pt, lesson_permission_for db.permissions l account = some pt →
        l ∈ recurrenceIds db d → lookupBase db.lessons l ≠ none →
        ∃ les ∈ ls, les.id = l) := by
  have h2 := for_date_noFail db d account
  rw [h] at h2
  have hls : ls = hydrateList db (matchingIds db d account) := Except.ok.inj h2
  subst hls
  constructor
  · intro hnone les hmem hid
    rw [mem_hydrateList] at hmem
    obtain ⟨i, hi, hpi⟩ := hmem
    have hiq : les.id = i := hydratePure_id db i les hpi
    rw [hiq] at hid
    subst hid
    have := (List.mem_filter.mp hi).2
    rw [hnone] at this
    simp [is_read_permission] at this
  · intro pt hpt hrec hbase
    have hmem : l ∈ matchingIds db d account :=
      List.mem_filter.mpr ⟨hrec, by simp [hpt, is_read_permission]⟩
    cases hb : lookupBase db.lessons l with
    | none => exact absurd hb hbase
    | some b =>
        have hp : hydratePure db l =
            some ⟨l, b.title, b.description, rowsFor db.singleOccurrences l,
              rowsFor db.weeklyRepeats l, rowsFor db.dailyRepeats l,
              rowsFor db.monthlyRepeats l, rowsFor db.teacherLessons l⟩ := by
          simp [hydratePure, hb]
        exact ⟨_, (mem_hydrateList db _ _).mpr ⟨l, hmem, hp⟩, rfl⟩

/-- Witness for claim C7: on dbW, account 8 (no grant) gets an empty
    resolution for the matching date while account 7 (read-write) gets
    lesson 1. -/
theorem for_date_respects_permissions_witness :
    Lesson.for_date noFail dbW dW 8 = Except.ok [] ∧
    (∀ les ∈ ([] : List Lesson), les.id ≠ 1) ∧
    Lesson.for_date noFail dbW dW 7 = Except.ok [lessonW] ∧
    (∃ les ∈ [lessonW], les.id = 1) :=
  ⟨rfl,
   (for_date_respects_permissions dbW dW 8 1 [] rfl).1 rfl,
   rfl,
   (for_date_respects_permissions dbW dW 7 1 [lessonW] rfl).2
     PermissionType.readWrite rfl (by decide) (by decide)⟩

/-- Claim C8: the middleware short-circuits with an authentication error
    and never invokes the wrapped stage when credential verification
    fails (the outcome is the same for every wrapped service), and on
    success it invokes the wrapped stage exactly on the same request with
    the account id and the claim attached to its extensions, headers and
    payload untouched. -/
theorem auth_middleware_gate
    (verify : Headers → Except AuthError ApplicationClaim)
    (service : ServiceRequest → Except PipelineError ServiceResponse)
    (req : ServiceRequest) :
    (∀ e, verify req.headers = Except.error e →
        authMiddlewareCall verify service req =
          Except.error (PipelineError.auth e) ∧
        ∀ service2, authMiddlewareCall verify service2 req =
          authMiddlewareCall verify service req) ∧
    (∀ claim, verify req.headers = Except.ok claim →
        authMiddlewareCall verify service req =
          service { req with
            extensions := ⟨some claim.inner.account_id, some claim⟩ } ∧
        ({ req with extensions := ⟨some claim.inner.account_id, some claim⟩ }
            : ServiceRequest).headers = req.headers ∧
        ({ req with extensions := ⟨some claim.inner.account_id, some claim⟩ }
            : ServiceRequest).payload = req.payload) := by
  constructor
  · intro e he
    constructor
    · simp [authMiddlewareCall, he]
    · intro service2
      simp [authMiddlewareCall, he]
  · intro claim hcl
    exact ⟨by simp [authMiddlewareCall, hcl], rfl, rfl⟩

/-- Witness for claim C8: a failing verifier short-circuits with the auth
    error; a succeeding verifier forwards to the service with the claim
    attached. -/
theorem auth_middleware_gate_witness :
    authMiddlewareCall verifyFailW serviceW reqW =
      Except.error (PipelineError.auth AuthError.invalidToken) ∧
    authMiddlewareCall verifyOkW serviceW reqW =
      serviceW { reqW with
        extensions := ⟨some claimW.inner.account_id, some claimW⟩ } :=
  ⟨((auth_middleware_gate verifyFailW serviceW reqW).1
      AuthError.invalidToken rfl).1,
   ((auth_middleware_gate verifyOkW serviceW reqW).2 claimW rfl).1⟩

/-- Claim C9: a lesson id produced by the recurrence/permission subquery
    whose base row is absent is silently skipped by the hydration loop:
    resolution still succeeds, it returns exactly the lessons of the
    remaining ids, and no returned lesson carries the absent id. -/
theorem for_date_omits_missing_base (db : DB) (d : Date)
    (account : AccountID) (l : LessonID)
    (h1 : l ∈ matchingIds db d account)
    (h2 : lookupBase db.lessons l = none) :
    Lesson.for_date noFail db d account =
      Except.ok (hydrateList db
        ((matchingIds db d account).filter (fun i => decide (i ≠ l)))) ∧
    ∀ les ∈ hydrateList db (matchingIds db d account), les.id ≠ l := by
  have hnone : hydratePure db l = none := by simp [hydratePure, h2]
  constructor
  · rw [for_date_noFail]
    unfold hydrateList
    rw [filterMap_drop_none (hydratePure db) l hnone]
  · intro les hmem hid
    rw [mem_hydrateList] at hmem
    obtain ⟨i, hi, hpi⟩ := hmem
    have hiq : les.id = i := hydratePure_id db i les hpi
    rw [hiq] at hid
    subst hid
    rw [hnone] at hpi
    exact absurd hpi (by simp)

/-- Witness for claim C9: dbC9's subquery yields id 3 (matching single
    occurrence, readable by account 7) but no base row exists, and the
    resolution succeeds with the id omitted. -/
theorem for_date_omits_missing_base_witness :
    (3 ∈ matchingIds dbC9 dW 7) ∧
    lookupBase dbC9.lessons 3 = none ∧
    Lesson.for_date noFail dbC9 dW 7 =
      Except.ok (hydrateList dbC9
        ((matchingIds dbC9 dW 7).filter (fun i => decide (i ≠ 3)))) ∧
    (∀ les ∈ hydrateList dbC9 (matchingIds dbC9 dW 7), les.id ≠ 3) :=
  ⟨by decide, rfl,
   (for_date_omits_missing_base dbC9 dW 7 3 (by decide) rfl).1,
   (for_date_omits_missing_base dbC9 dW 7 3 (by decide) rfl).2⟩

/-- Claim C10: Update never touches the teacher-lesson association: for
    every oracle, store and argument combination, the teacher-link table
    after the call equals the one before it. -/
theorem update_preserves_teacher_links (o : FailOracle) (db : DB)
    (l : LessonID) (t : Option String) (s : Option (List SingleOccurrence))
    (d : Option (List DailyRepeat)) (w : Option (List WeeklyRepeat))
    (m : Option (List MonthlyRepeat)) (descr : Option (Option String)) :
    (Lesson.update o db l t s d w m descr).1.teacherLessons =
      db.teacherLessons := by
  cases hu : updateWork o db l t s d w m descr with
  | error e => simp [Lesson.update, hu]
  | ok db1 =>
      have hchar := updateWork_ok o db l t s d w m descr db1 hu
      simp [Lesson.update, hu, hchar]

end NeStudent
